import Mathlib

/-!
# Verification of the YTS → Real-Debrid batch synchronization scripts

Shallow embedding of the three Python scripts (`bulk_fetch.py`,
`fetch_movies.py`, `fetch_shows.py`) of the YTS-RD repository, together
with proofs settling the frozen specification claims.

Modelling conventions:
* Python strings are Lean `String`s; `str.lower()` is modelled character-wise
  (`strLower`), `str.replace(" ", "+")` likewise (`plusSpaces`), both faithful
  for the single-byte characters the scripts manipulate.
* Network interactions are modelled by explicit response oracles (`Env`,
  `DriverEnv`, per-attempt response functions): the destination service and
  the upstream catalog are deterministic response functions, which is the
  "unchanged external state" reading used throughout the spec.
* Python exceptions crossing a `try` boundary are `Except` values; code that
  catches every exception becomes a total function on `Except`.
* `time.sleep` calls are recorded as lists of slept durations so retry/backoff
  claims can be stated about them.
-/

namespace YtsRd

/-- One quality variant of a movie, as read from the YTS `torrents` array
(`torrent.get("quality")`, `torrent.get("hash", "")`): a missing hash is
already defaulted to `""` by the `.get` call. -/
structure Torrent where
  quality : String
  hash : String
  deriving DecidableEq, Repr

/-- One catalog item as read from the YTS `movies` array; `title` and `year`
are the already-defaulted values of `movie.get("title", "Unknown")` and
`movie.get("year", "")` (the year is rendered to text by the f-string). -/
structure Movie where
  title : String
  year : String
  torrents : List Torrent
  deriving DecidableEq, Repr

/-- Character-wise model of Python `str.lower()` (ASCII, as used on hex
hashes). -/
def strLower (s : String) : String := ⟨s.data.map Char.toLower⟩

/-- Character-wise model of Python `movie_name.replace(" ", "+")`. -/
def plusSpaces (s : String) : String :=
  ⟨s.data.map (fun c => if c = ' ' then '+' else c)⟩

/-- Boolean prefix test on character lists. -/
def hasPrefixChars : List Char → List Char → Bool
  | [], _ => true
  | _ :: _, [] => false
  | a :: as, b :: bs => a == b && hasPrefixChars as bs

/-- `strBegins p s` holds when the string `s` starts with `p`. -/
def strBegins (p s : String) : Bool := hasPrefixChars p.data s.data

/-- The fixed tracker list of `create_magnet_link` (identical in
`bulk_fetch.py` and `fetch_movies.py`). -/
def trackers : List String :=
  ["udp://open.demonii.com:1337/announce",
   "udp://tracker.openbittorrent.com:80",
   "udp://tracker.coppersurfer.tk:6969",
   "udp://glotorrents.pw:6969/announce",
   "udp://tracker.opentrackr.org:1337/announce",
   "udp://torrent.gresille.org:80/announce",
   "udp://p4p.arenabg.com:1337",
   "udp://tracker.leechers-paradise.org:6969"]

/-- `create_magnet_link` from `bulk_fetch.py` lines 154-172 (the copy in
`fetch_movies.py` lines 153-181 is identical): the hash is interpolated
verbatim, spaces of the display name become `+`, and the trackers are
appended one by one. -/
def create_magnet_link (torrent_hash : String) (movie_name : String) : String :=
  let clean_name := plusSpaces movie_name
  trackers.foldl (fun m tr => m ++ "&tr=" ++ tr)
    ("magnet:?xt=urn:btih:" ++ torrent_hash ++ "&dn=" ++ clean_name)

/-- The tracker query-parameter tail appended by `create_magnet_link`. -/
def trackersTail : String :=
  trackers.foldl (fun m tr => m ++ "&tr=" ++ tr) ""

/-- The preference list hard-wired in both movie scripts. -/
def preferred_qualities : List String := ["2160p", "1080p"]

/-- The variant-selection loop (`bulk_fetch.py` lines 283-289,
`fetch_movies.py` lines 244-250): for each preferred quality in order, scan
the torrents of the item and keep the first one whose quality matches, then
`break`. -/
def selectTorrents (prefs : List String) (ts : List Torrent) : List Torrent :=
  match prefs with
  | [] => []
  | q :: rest =>
    match ts.find? (fun t => t.quality == q) with
    | some t => t :: selectTorrents rest ts
    | none => selectTorrents rest ts

/-- Deterministic response behaviour of the Real-Debrid destination for one
run: `add` maps a posted magnet link to the torrent id of a successful
`add_magnet` call (`none` = the call failed after its retries), `sel` tells
whether `select_files` on a given torrent id eventually returns `True`. -/
structure Env where
  add : String → Option String
  sel : String → Bool

/-- The mutable run state of the item loop of `bulk_fetch.py` `main`
(lines 216-220 and 269-331): the in-memory dedup index `existing_hashes`,
the three counters, `movies_processed`, plus an observation log of every
magnet link actually posted to the add endpoint of the destination. -/
structure RunState where
  existing : List String
  totalAdded : Nat
  totalSkipped : Nat
  totalFailed : Nat
  moviesProcessed : Nat
  addCalls : List String
  deriving DecidableEq, Repr

/-- Initial run state with a loaded destination index. -/
def initState (index : List String) : RunState :=
  { existing := index, totalAdded := 0, totalSkipped := 0, totalFailed := 0
    moviesProcessed := 0, addCalls := [] }

/-- The display name built by the f-string from title, year and quality at the
add call site. -/
def movieName (m : Movie) (t : Torrent) : String :=
  m.title ++ " " ++ m.year ++ " " ++ t.quality

/-- Body of the inner `for torrent in torrents_to_add` loop of
`bulk_fetch.py` `main` (lines 301-324): lower-case the hash; skip silently
when it is empty or already indexed; otherwise build the magnet link, post
it, and on full success count the add and record the hash, else count a
failure.  The `Bool` component threads `movie_added`. -/
def processTorrent (env : Env) (m : Movie) (acc : RunState × Bool)
    (t : Torrent) : RunState × Bool :=
  let st := acc.1
  let h := strLower t.hash
  if h = "" ∨ h ∈ st.existing then acc
  else
    let magnet := create_magnet_link h (movieName m t)
    let st1 := { st with addCalls := st.addCalls ++ [magnet] }
    match env.add magnet with
    | some tid =>
      if env.sel tid then
        ({ st1 with totalAdded := st1.totalAdded + 1
                    existing := h :: st1.existing }, true)
      else
        ({ st1 with totalFailed := st1.totalFailed + 1 }, acc.2)
    | none => ({ st1 with totalFailed := st1.totalFailed + 1 }, acc.2)

/-- Body of the `for movie in movies` loop of `bulk_fetch.py` `main`
(lines 269-331): count the movie, skip items without torrents or without a
preferred-quality variant, run the variant loop, and count the item as
skipped when no variant was added. -/
def processMovie (env : Env) (st : RunState) (m : Movie) : RunState :=
  let st0 := { st with moviesProcessed := st.moviesProcessed + 1 }
  if m.torrents = [] then { st0 with totalSkipped := st0.totalSkipped + 1 }
  else
    let toAdd := selectTorrents preferred_qualities m.torrents
    if toAdd = [] then { st0 with totalSkipped := st0.totalSkipped + 1 }
    else
      let res := toAdd.foldl (processTorrent env m) (st0, false)
      if res.2 then res.1
      else { res.1 with totalSkipped := res.1.totalSkipped + 1 }

/-- The item loop over one fetched page of movies. -/
def processMovies (env : Env) (movies : List Movie) (st : RunState) : RunState :=
  movies.foldl (processMovie env) st

/-- An attempt succeeds end-to-end for variant `t` of movie `m` exactly when
the destination accepts the magnet built for it and the subsequent file
selection succeeds. -/
def succeeds (env : Env) (m : Movie) (t : Torrent) : Prop :=
  ∃ tid, env.add (create_magnet_link (strLower t.hash) (movieName m t)) = some tid
    ∧ env.sel tid = true

/-- Result of one HTTP attempt inside `add_magnet`: a 2xx response carrying
`result.get("id")` (which may itself be absent), an `HTTPError` with its
status code, or any other `RequestException`. -/
inductive AddAttempt where
  | success (id : Option String)
  | httpError (status : Nat)
  | transportError
  deriving DecidableEq, Repr

/-- The `for attempt in range(retry_count)` loop of
`RealDebridClient.add_magnet` (`bulk_fetch.py` lines 90-113,
`fetch_movies.py` lines 66-100): `resp` gives the outcome of each attempt, `unit`
is the backoff unit (10 in `bulk_fetch.py`, 5 in `fetch_movies.py` and
`fetch_shows.py`).  Returns the result together with the list of slept
backoff durations and the number of HTTP attempts performed.  `fuel` counts
the remaining loop iterations, `attempt` the Python loop variable. -/
def addMagnetGo (resp : Nat → AddAttempt) (unit retryCount : Nat) :
    Nat → Nat → Option String × List Nat × Nat
  | _, 0 => (none, [], 0)
  | attempt, fuel + 1 =>
    match resp attempt with
    | AddAttempt.success id => (id, [], 1)
    | AddAttempt.httpError s =>
      if s = 429 ∧ attempt < retryCount - 1 then
        let r := addMagnetGo resp unit retryCount (attempt + 1) fuel
        (r.1, (attempt + 1) * unit :: r.2.1, r.2.2 + 1)
      else (none, [], 1)
    | AddAttempt.transportError => (none, [], 1)

/-- `add_magnet` with its `retry_count` argument (default 3 at every call
site). -/
def add_magnet (resp : Nat → AddAttempt) (unit retryCount : Nat) :
    Option String × List Nat × Nat :=
  addMagnetGo resp unit retryCount 0 retryCount

/-- Result of one HTTP attempt inside `select_files`. -/
inductive SelAttempt where
  | success
  | httpError (status : Nat)
  | transportError
  deriving DecidableEq, Repr

/-- The retry loop of `RealDebridClient.select_files` (`bulk_fetch.py`
lines 115-137, identical in `fetch_movies.py` and `fetch_shows.py`): retry
after a fixed 2-second sleep on HTTP 404 or on any transport error while
attempts remain, give up immediately on any other HTTP error.  Returns the
boolean outcome, the slept delays, and the number of attempts. -/
def selectFilesGo (resp : Nat → SelAttempt) (retryCount : Nat) :
    Nat → Nat → Bool × List Nat × Nat
  | _, 0 => (false, [], 0)
  | attempt, fuel + 1 =>
    match resp attempt with
    | SelAttempt.success => (true, [], 1)
    | SelAttempt.httpError s =>
      if s = 404 ∧ attempt < retryCount - 1 then
        let r := selectFilesGo resp retryCount (attempt + 1) fuel
        (r.1, 2 :: r.2.1, r.2.2 + 1)
      else (false, [], 1)
    | SelAttempt.transportError =>
      if attempt < retryCount - 1 then
        let r := selectFilesGo resp retryCount (attempt + 1) fuel
        (r.1, 2 :: r.2.1, r.2.2 + 1)
      else (false, [], 1)

/-- `select_files` with its `retry_count` argument (default 3 at every call
site). -/
def select_files (resp : Nat → SelAttempt) (retryCount : Nat) :
    Bool × List Nat × Nat :=
  selectFilesGo resp retryCount 0 retryCount

/-- The JSON payload of a successful `list_movies.json` HTTP exchange, with
the dictionary defaults of the source already applied: `status` is
`data.get("status")`, `movies` is `data["data"].get("movies")` read as a list
(absent ⇒ empty), `movie_count` is `data["data"].get("movie_count", 0)` and
`limit` is the server-echoed `data["data"].get("limit", 50)`. -/
structure ApiResponse where
  status : String
  movies : List Movie
  movie_count : Nat
  limit : Nat
  deriving DecidableEq, Repr

/-- `YTSFetcher.get_movies_page` (`bulk_fetch.py` lines 40-77): the input is
the HTTP exchange as seen by the `try` block — `Except.error` is any raised
`RequestException` (connection failure, non-2xx status via
`raise_for_status`, undecodable body).  Total: it never re-raises. -/
def get_movies_page (resp : Except String ApiResponse) : List Movie × Nat :=
  match resp with
  | Except.error _ => ([], 0)
  | Except.ok d =>
    if d.status = "ok" ∧ d.movies ≠ [] then
      (d.movies, (d.movie_count + d.limit - 1) / d.limit)
    else ([], 0)

/-- `YTSFetcher.get_latest_movies` (`fetch_movies.py` lines 22-53), same
input convention. -/
def get_latest_movies (resp : Except String ApiResponse) : List Movie :=
  match resp with
  | Except.error _ => []
  | Except.ok d => if d.status = "ok" ∧ d.movies ≠ [] then d.movies else []

/-- One record written to `bulk_fetch_progress.txt`.  The per-page error
checkpoint (lines 260-266) carries a `Last attempted page` line; the
periodic every-10-pages checkpoint (lines 339-344) does not, hence the
`Option`. -/
structure Checkpoint where
  lastCompletedPage : Nat
  lastAttemptedPage : Option Nat
  added : Nat
  skipped : Nat
  failed : Nat
  deriving DecidableEq, Repr

/-- External behaviour seen by the page loop: `fetch p` is the outcome of
`yts.get_movies_page(page=p, ...)` as observed by the surrounding `try`
block — `Except.error` models the (rare) case where that call raises — and
`dest` is the destination service behaviour driving the item loop. -/
structure DriverEnv where
  fetch : Nat → Except String (List Movie)
  dest : Env

/-- Driver state threaded through the `for page in range(start_page,
end_page + 1)` loop: item-loop state, all checkpoints written so far, and
the pages attempted so far (in order). -/
structure DriverState where
  rs : RunState
  checkpoints : List Checkpoint
  attempted : List Nat
  deriving DecidableEq, Repr

/-- The checkpoint written in the per-page `except` handler
(`bulk_fetch.py` lines 260-266). -/
def errorCheckpoint (page : Nat) (rs : RunState) : Checkpoint :=
  { lastCompletedPage := page - 1, lastAttemptedPage := some page
    added := rs.totalAdded, skipped := rs.totalSkipped, failed := rs.totalFailed }

/-- The checkpoint written every 10 pages (`bulk_fetch.py` lines 337-344). -/
def periodicCheckpoint (page : Nat) (rs : RunState) : Checkpoint :=
  { lastCompletedPage := page, lastAttemptedPage := none
    added := rs.totalAdded, skipped := rs.totalSkipped, failed := rs.totalFailed }

/-- One iteration of the page loop of `bulk_fetch.py` `main`
(lines 245-346): page 1 reuses the movies fetched during initialization;
a raising fetch writes an error checkpoint and continues; an empty fetch
result skips the page; otherwise the item loop runs and a periodic
checkpoint is written when `page % 10 == 0`. -/
def stepPage (denv : DriverEnv) (page1Movies : List Movie)
    (st : DriverState) (page : Nat) : DriverState :=
  let st0 := { st with attempted := st.attempted ++ [page] }
  let fetched : Except String (List Movie) :=
    if 1 < page then denv.fetch page else Except.ok page1Movies
  match fetched with
  | Except.error _ =>
    { st0 with checkpoints := st0.checkpoints ++ [errorCheckpoint page st0.rs] }
  | Except.ok movies =>
    if movies = [] then st0
    else
      let rs1 := processMovies denv.dest movies st0.rs
      if page % 10 = 0 then
        { st0 with rs := rs1
                   checkpoints := st0.checkpoints ++ [periodicCheckpoint page rs1] }
      else { st0 with rs := rs1 }

/-- The page loop over a given list of page numbers. -/
def runPages (denv : DriverEnv) (page1Movies : List Movie)
    (st : DriverState) (pages : List Nat) : DriverState :=
  pages.foldl (stepPage denv page1Movies) st

/-- `end_page` computation of `bulk_fetch.py` `main` (lines 232-237): an
explicit `MAX_PAGES > 0` cap overrides the batch size. -/
def end_page (startPage maxPages batchSize totalPages : Nat) : Nat :=
  if 0 < maxPages then min (startPage + maxPages - 1) totalPages
  else min (startPage + batchSize - 1) totalPages

/-- Python `range(s, e + 1)` as a list. -/
def pageRange (s e : Nat) : List Nat := List.range' s (e + 1 - s)

/-- Fresh driver state for a run whose loaded destination index is
`index`. -/
def initDriver (index : List String) : DriverState :=
  { rs := initState index, checkpoints := [], attempted := [] }

/-- A whole batch run of the page loop, pages `s` through `e`. -/
def runDriver (denv : DriverEnv) (page1Movies : List Movie)
    (index : List String) (s e : Nat) : DriverState :=
  runPages denv page1Movies (initDriver index) (pageRange s e)

/-- `batch_complete = end_page >= total_pages` (`bulk_fetch.py` line 350). -/
def batch_complete (endPage totalPages : Nat) : Bool :=
  decide (totalPages ≤ endPage)

/-- Existence of `bulk_fetch_complete.flag` after a `bulk_fetch.py` run,
as a function of its existence before: the script creates the file exactly
when the batch is complete (lines 370-372) and never deletes it. -/
def runBulkFlag (flagBefore : Bool) (endPage totalPages : Nat) : Bool :=
  flagBefore || batch_complete endPage totalPages

/-- Existence of the flag after a `fetch_movies.py` run: line 198 only reads
`os.path.exists("bulk_fetch_complete.flag")`; the script never writes or
removes it. -/
def runIncrementalFlag (flagBefore : Bool) : Bool := flagBefore

/-! ## Helper lemmas about the item loop -/

theorem selectTorrents_nil (prefs : List String) : selectTorrents prefs [] = [] := by
  induction prefs with
  | nil => rfl
  | cons q rest ih => simp [selectTorrents, List.find?, ih]

theorem processTorrent_mono (env : Env) (m : Movie) (acc : RunState × Bool)
    (t : Torrent) : acc.1.existing ⊆ (processTorrent env m acc t).1.existing := by
  unfold processTorrent
  dsimp only
  split
  · exact fun a ha => ha
  · split
    · split
      · exact fun a ha => List.mem_cons_of_mem _ ha
      · exact fun a ha => ha
    · exact fun a ha => ha

theorem foldTorrents_mono (env : Env) (m : Movie) (ts : List Torrent)
    (acc : RunState × Bool) :
    acc.1.existing ⊆ (ts.foldl (processTorrent env m) acc).1.existing := by
  induction ts generalizing acc with
  | nil => exact fun a ha => ha
  | cons t ts ih =>
    intro a ha
    simp only [List.foldl_cons]
    exact ih (processTorrent env m acc t) (processTorrent_mono env m acc t ha)

theorem processMovie_mono (env : Env) (st : RunState) (m : Movie) :
    st.existing ⊆ (processMovie env st m).existing := by
  unfold processMovie
  dsimp only
  split
  · exact fun a ha => ha
  · split
    · exact fun a ha => ha
    · have h := foldTorrents_mono env m (selectTorrents preferred_qualities m.torrents)
        ({ st with moviesProcessed := st.moviesProcessed + 1 }, false)
      split
      · exact h
      · exact h

theorem processMovies_mono (env : Env) (ms : List Movie) (st : RunState) :
    st.existing ⊆ (processMovies env ms st).existing := by
  induction ms generalizing st with
  | nil => exact fun a ha => ha
  | cons m ms ih =>
    intro a ha
    simp only [processMovies, List.foldl_cons]
    exact ih (processMovie env st m) (processMovie_mono env st m ha)

theorem processTorrent_closure (env : Env) (m : Movie) (acc : RunState × Bool)
    (t : Torrent) (hne : strLower t.hash ≠ "") (hs : succeeds env m t) :
    strLower t.hash ∈ (processTorrent env m acc t).1.existing := by
  obtain ⟨tid, hadd, hsel⟩ := hs
  unfold processTorrent
  dsimp only
  split
  · next hc =>
    rcases hc with hc | hc
    · exact absurd hc hne
    · exact hc
  · next hc =>
    rw [hadd]
    simp only [hsel, if_true]
    exact List.mem_cons_self _ _

theorem foldTorrents_closure (env : Env) (m : Movie) (ts : List Torrent)
    (acc : RunState × Bool) (t : Torrent) (ht : t ∈ ts)
    (hne : strLower t.hash ≠ "") (hs : succeeds env m t) :
    strLower t.hash ∈ (ts.foldl (processTorrent env m) acc).1.existing := by
  induction ts generalizing acc with
  | nil => cases ht
  | cons t' ts ih =>
    simp only [List.foldl_cons]
    rcases List.mem_cons.mp ht with rfl | hmem
    · exact foldTorrents_mono env m ts _ (processTorrent_closure env m acc t hne hs)
    · exact ih (processTorrent env m acc t') hmem

theorem processMovie_closure (env : Env) (st : RunState) (m : Movie)
    (t : Torrent) (ht : t ∈ selectTorrents preferred_qualities m.torrents)
    (hne : strLower t.hash ≠ "") (hs : succeeds env m t) :
    strLower t.hash ∈ (processMovie env st m).existing := by
  unfold processMovie
  dsimp only
  split
  · next hnil =>
    rw [hnil, selectTorrents_nil] at ht
    cases ht
  · split
    · next hsel =>
      rw [hsel] at ht
      cases ht
    · split
      · exact foldTorrents_closure env m _ _ t ht hne hs
      · exact foldTorrents_closure env m _ _ t ht hne hs

theorem processMovies_closure (env : Env) (ms : List Movie) (st : RunState)
    (m : Movie) (t : Torrent) (hm : m ∈ ms)
    (ht : t ∈ selectTorrents preferred_qualities m.torrents)
    (hne : strLower t.hash ≠ "") (hs : succeeds env m t) :
    strLower t.hash ∈ (processMovies env ms st).existing := by
  induction ms generalizing st with
  | nil => cases hm
  | cons m' ms ih =>
    simp only [processMovies, List.foldl_cons]
    rcases List.mem_cons.mp hm with rfl | hmem
    · exact processMovies_mono env ms _ (processMovie_closure env st m t ht hne hs)
    · exact ih (processMovie env st m') hmem

theorem processTorrent_noAdd (env : Env) (m : Movie) (acc : RunState × Bool)
    (t : Torrent)
    (hyp : strLower t.hash ≠ "" → succeeds env m t → strLower t.hash ∈ acc.1.existing) :
    (processTorrent env m acc t).1.totalAdded = acc.1.totalAdded ∧
    (processTorrent env m acc t).1.existing = acc.1.existing := by
  unfold processTorrent
  dsimp only
  split
  · exact ⟨rfl, rfl⟩
  · next hc =>
    push_neg at hc
    obtain ⟨hne, hnm⟩ := hc
    split
    · next tid heq =>
      by_cases hsel : env.sel tid = true
      · exact absurd (hyp hne ⟨tid, heq, hsel⟩) hnm
      · rw [Bool.not_eq_true] at hsel
        simp [hsel]
    · exact ⟨rfl, rfl⟩

theorem foldTorrents_noAdd (env : Env) (m : Movie) (ts : List Torrent)
    (acc : RunState × Bool)
    (hyp : ∀ t ∈ ts, strLower t.hash ≠ "" → succeeds env m t →
      strLower t.hash ∈ acc.1.existing) :
    (ts.foldl (processTorrent env m) acc).1.totalAdded = acc.1.totalAdded ∧
    (ts.foldl (processTorrent env m) acc).1.existing = acc.1.existing := by
  induction ts generalizing acc with
  | nil => exact ⟨rfl, rfl⟩
  | cons t ts ih =>
    simp only [List.foldl_cons]
    have h1 := processTorrent_noAdd env m acc t
      (hyp t (List.mem_cons_self t ts))
    have h2 := ih (processTorrent env m acc t)
      (fun t' ht' hne hs => h1.2 ▸ hyp t' (List.mem_cons_of_mem t ht') hne hs)
    exact ⟨h2.1.trans h1.1, h2.2.trans h1.2⟩

theorem processMovie_noAdd (env : Env) (st : RunState) (m : Movie)
    (hyp : ∀ t ∈ selectTorrents preferred_qualities m.torrents,
      strLower t.hash ≠ "" → succeeds env m t → strLower t.hash ∈ st.existing) :
    (processMovie env st m).totalAdded = st.totalAdded ∧
    (processMovie env st m).existing = st.existing := by
  unfold processMovie
  dsimp only
  split
  · exact ⟨rfl, rfl⟩
  · split
    · exact ⟨rfl, rfl⟩
    · have h := foldTorrents_noAdd env m (selectTorrents preferred_qualities m.torrents)
        ({ st with moviesProcessed := st.moviesProcessed + 1 }, false) hyp
      split
      · exact h
      · exact h

theorem processMovies_noAdd (env : Env) (ms : List Movie) (st : RunState)
    (hyp : ∀ m ∈ ms, ∀ t ∈ selectTorrents preferred_qualities m.torrents,
      strLower t.hash ≠ "" → succeeds env m t → strLower t.hash ∈ st.existing) :
    (processMovies env ms st).totalAdded = st.totalAdded ∧
    (processMovies env ms st).existing = st.existing := by
  induction ms generalizing st with
  | nil => exact ⟨rfl, rfl⟩
  | cons m ms ih =>
    simp only [processMovies, List.foldl_cons]
    have h1 := processMovie_noAdd env st m (hyp m (List.mem_cons_self m ms))
    have h2 := ih (processMovie env st m)
      (fun m' hm' t ht' hne hs =>
        h1.2 ▸ hyp m' (List.mem_cons_of_mem m hm') t ht' hne hs)
    exact ⟨h2.1.trans h1.1, h2.2.trans h1.2⟩

theorem processTorrent_skipped (env : Env) (m : Movie) (acc : RunState × Bool)
    (t : Torrent) :
    (processTorrent env m acc t).1.totalSkipped = acc.1.totalSkipped := by
  unfold processTorrent
  dsimp only
  split
  · rfl
  · split
    · split
      · rfl
      · rfl
    · rfl

theorem foldTorrents_skipped (env : Env) (m : Movie) (ts : List Torrent)
    (acc : RunState × Bool) :
    (ts.foldl (processTorrent env m) acc).1.totalSkipped = acc.1.totalSkipped := by
  induction ts generalizing acc with
  | nil => rfl
  | cons t ts ih =>
    simp only [List.foldl_cons]
    exact (ih (processTorrent env m acc t)).trans (processTorrent_skipped env m acc t)

/-! ## Helper lemmas about the page loop -/

theorem stepPage_attempted (denv : DriverEnv) (p1m : List Movie)
    (st : DriverState) (page : Nat) :
    (stepPage denv p1m st page).attempted = st.attempted ++ [page] := by
  unfold stepPage
  dsimp only
  split
  · rfl
  · split
    · rfl
    · split
      · rfl
      · rfl

theorem runPages_attempted (denv : DriverEnv) (p1m : List Movie)
    (pages : List Nat) (st : DriverState) :
    (runPages denv p1m st pages).attempted = st.attempted ++ pages := by
  induction pages generalizing st with
  | nil => simp [runPages]
  | cons p ps ih =>
    simp only [runPages, List.foldl_cons] at ih ⊢
    rw [ih, stepPage_attempted, List.append_assoc, List.singleton_append]

theorem stepPage_checkpoints (denv : DriverEnv) (p1m : List Movie)
    (st : DriverState) (page : Nat) (c : Checkpoint)
    (hc : c ∈ st.checkpoints) :
    c ∈ (stepPage denv p1m st page).checkpoints := by
  unfold stepPage
  dsimp only
  split
  · exact List.mem_append_left _ hc
  · split
    · exact hc
    · split
      · exact List.mem_append_left _ hc
      · exact hc

theorem runPages_checkpoints (denv : DriverEnv) (p1m : List Movie)
    (pages : List Nat) (st : DriverState) (c : Checkpoint)
    (hc : c ∈ st.checkpoints) :
    c ∈ (runPages denv p1m st pages).checkpoints := by
  induction pages generalizing st with
  | nil => exact hc
  | cons p ps ih =>
    simp only [runPages, List.foldl_cons] at ih ⊢
    exact ih _ (stepPage_checkpoints denv p1m st p c hc)

theorem stepPage_error (denv : DriverEnv) (p1m : List Movie) (st : DriverState)
    (p : Nat) (msg : String) (h1 : 1 < p) (hf : denv.fetch p = Except.error msg) :
    stepPage denv p1m st p =
      { st with attempted := st.attempted ++ [p]
                checkpoints := st.checkpoints ++ [errorCheckpoint p st.rs] } := by
  unfold stepPage
  dsimp only
  rw [if_pos h1, hf]

theorem pageRange_split (s e p : Nat) (hs : s ≤ p) (he : p ≤ e) (h1 : 1 ≤ p) :
    pageRange s e = pageRange s (p - 1) ++ p :: pageRange (p + 1) e := by
  unfold pageRange
  rw [show p - 1 + 1 - s = p - s by omega, show e + 1 - (p + 1) = e - p by omega]
  have h := List.range'_append_1 s (p - s) (e + 1 - p)
  rw [show s + (p - s) = p by omega] at h
  rw [show e + 1 - p = e - p + 1 by omega] at h
  rw [List.range'_succ] at h
  rw [show e + 1 - s = e - p + 1 + (p - s) by omega]
  exact h.symm

theorem mem_pageRange (s e p : Nat) : p ∈ pageRange s e ↔ s ≤ p ∧ p < e + 1 := by
  unfold pageRange
  rw [List.mem_range'_1]
  omega

/-! ## Helper lemmas about the retry loops -/

theorem selectFilesGo_attempts_le (resp : Nat → SelAttempt) (rc : Nat) :
    ∀ (fuel a : Nat), (selectFilesGo resp rc a fuel).2.2 ≤ fuel := by
  intro fuel
  induction fuel with
  | zero => intro a; simp [selectFilesGo]
  | succ n ih =>
    intro a
    unfold selectFilesGo
    dsimp only
    split
    · simp
    · split
      · simpa using Nat.succ_le_succ (ih (a + 1))
      · simp
    · split
      · simpa using Nat.succ_le_succ (ih (a + 1))
      · simp

/-! ## Helper lemmas about magnet-link construction -/

theorem foldl_tr_shift (l : List String) (base : String) :
    l.foldl (fun m tr => m ++ "&tr=" ++ tr) base
      = base ++ l.foldl (fun m tr => m ++ "&tr=" ++ tr) "" := by
  induction l generalizing base with
  | nil => simp
  | cons x xs ih =>
    simp only [List.foldl_cons]
    rw [ih (base ++ "&tr=" ++ x), ih ("" ++ "&tr=" ++ x)]
    simp [String.append_assoc]

theorem create_magnet_link_eq (h n : String) :
    create_magnet_link h n
      = "magnet:?xt=urn:btih:" ++ h ++ "&dn=" ++ plusSpaces n ++ trackersTail := by
  unfold create_magnet_link trackersTail
  dsimp only
  rw [foldl_tr_shift, String.append_assoc]

theorem hasPrefixChars_append (l r : List Char) : hasPrefixChars l (l ++ r) = true := by
  induction l with
  | nil => rfl
  | cons c cs ih => simp [hasPrefixChars, ih]

theorem strBegins_append (p r : String) : strBegins p (p ++ r) = true := by
  unfold strBegins
  rw [String.data_append]
  exact hasPrefixChars_append _ _

theorem create_magnet_link_begins (h n : String) :
    strBegins ("magnet:?xt=urn:btih:" ++ h) (create_magnet_link h n) = true := by
  have e : "magnet:?xt=urn:btih:" ++ h ++ "&dn=" ++ plusSpaces n ++ trackersTail
      = ("magnet:?xt=urn:btih:" ++ h) ++ ("&dn=" ++ (plusSpaces n ++ trackersTail)) := by
    simp [String.append_assoc]
  rw [create_magnet_link_eq, e]
  exact strBegins_append _ _

/-! ## Concrete fixtures used by the witness theorems -/

/-- A 2160p variant with a well-formed hash. -/
def tW : Torrent := { quality := "2160p", hash := "AAAA1111" }

/-- A 1080p variant with a different hash. -/
def tX : Torrent := { quality := "1080p", hash := "BBBB2222" }

/-- A variant whose hash field is missing (defaulted to the empty string). -/
def tE : Torrent := { quality := "720p", hash := "" }

/-- A movie carrying both preferred qualities. -/
def mW : Movie := { title := "Alpha", year := "2024", torrents := [tW, tX] }

/-- A movie whose only variant has an empty hash. -/
def mE : Movie := { title := "Beta", year := "2020", torrents := [tE] }

/-- A destination that accepts exactly the magnet built for `tW` in `mW` and
whose file selection succeeds on the returned id. -/
def envW : Env :=
  { add := fun s =>
      if s = create_magnet_link (strLower tW.hash) (movieName mW tW) then some "id1"
      else none
    sel := fun tid => tid == "id1" }

/-- A destination that accepts every magnet but always fails file
selection. -/
def envF : Env := { add := fun _ => some "idX", sel := fun _ => false }

/-- A page environment whose fetch of page 2 raises and every other page
returns no movies. -/
def denvW : DriverEnv :=
  { fetch := fun p => if p = 2 then Except.error "boom" else Except.ok []
    dest := envW }

/-! ## Claim theorems -/

/-- C1: a variant whose lower-cased content hash is already in the in-memory
destination index causes no add-magnet call and leaves the loop state
untouched (it is a duplicate); consequently, running the item loop a second
time over the same page against the same destination behaviour, with a
loaded index containing everything the first run left in its index, adds
nothing: `totalAdded` stays 0 on the second run. -/
theorem C1_dedup_idempotence (env : Env) (movies : List Movie)
    (index loadedIndex : List String) :
    (∀ (st : RunState) (ma : Bool) (m : Movie) (t : Torrent),
        strLower t.hash ∈ st.existing →
        processTorrent env m (st, ma) t = (st, ma)) ∧
    ((processMovies env movies (initState index)).existing ⊆ loadedIndex →
      (processMovies env movies (initState loadedIndex)).totalAdded = 0) := by
  constructor
  · intro st ma m t hmem
    unfold processTorrent
    dsimp only
    rw [if_pos (Or.inr hmem)]
  · intro hsub
    have hyp : ∀ m ∈ movies, ∀ t ∈ selectTorrents preferred_qualities m.torrents,
        strLower t.hash ≠ "" → succeeds env m t →
        strLower t.hash ∈ (initState loadedIndex).existing :=
      fun m hm t ht hne hs =>
        hsub (processMovies_closure env movies (initState index) m t hm ht hne hs)
    exact (processMovies_noAdd env movies (initState loadedIndex) hyp).1

/-- C1 witness: with the concrete destination `envW` and the one-page catalog
`[mW]`, a second run whose loaded index is the final index of the first run adds
nothing. -/
theorem C1_dedup_idempotence_witness :
    (processMovies envW [mW]
      (initState (processMovies envW [mW] (initState [])).existing)).totalAdded = 0 :=
  (C1_dedup_idempotence envW [mW] []
    (processMovies envW [mW] (initState [])).existing).2 (fun _ hx => hx)

/-- C7: variant selection walks the preference list in order and keeps, for
each label, the first variant whose quality equals that label, skipping
labels without a match; in particular the two concrete examples of the spec hold.
Selection is a pure function of its arguments. -/
theorem C7_variant_selection :
    (∀ (prefs : List String) (ts : List Torrent),
        selectTorrents prefs ts
          = prefs.filterMap (fun q => ts.find? (fun t => t.quality == q))) ∧
    selectTorrents preferred_qualities
        [{ quality := "720p", hash := "h7" }, { quality := "1080p", hash := "h10" },
         { quality := "2160p", hash := "h21" }]
      = [{ quality := "2160p", hash := "h21" }, { quality := "1080p", hash := "h10" }] ∧
    selectTorrents preferred_qualities [{ quality := "720p", hash := "h7" }] = [] := by
  refine ⟨?ga, by decide, by decide⟩
  intro prefs ts
  induction prefs with
  | nil => rfl
  | cons q rest ih =>
    simp only [selectTorrents, List.filterMap_cons]
    cases hf : ts.find? (fun t => t.quality == q) with
    | none => simp [hf, ih]
    | some t => simp [hf, ih]

/-- C8 counterexample: the link builder does not lower-case its hash
argument: on the example input of the spec itself (upper-case hash) the produced URI
does not begin with the lower-cased form the claim requires. -/
theorem C8_counterexample :
    strBegins ("magnet:?xt=urn:btih:abcdef")
      (create_magnet_link ("ABCDEF0123456789ABCDEF0123456789ABCDEF01")
        ("My Movie 2024 1080p")) = false := by
  decide

/-- C8 (amended): `create_magnet_link` is a pure function yielding
`magnet:?xt=urn:btih:` followed by the hash exactly as given, the display
name with spaces replaced by `+`, and exactly the 8 fixed tracker
parameters; the lower-casing happens at the call site — the item loop
always passes the lower-cased hash, so every link it posts begins with the
lower-cased hash. -/
theorem C8_magnet_construction (h n : String) (env : Env) (m : Movie)
    (st : RunState) (ma : Bool) (t : Torrent) :
    create_magnet_link h n
        = "magnet:?xt=urn:btih:" ++ h ++ "&dn=" ++ plusSpaces n ++ trackersTail ∧
    trackers.length = 8 ∧
    strBegins ("magnet:?xt=urn:btih:" ++ h) (create_magnet_link h n) = true ∧
    (strLower t.hash ≠ "" → strLower t.hash ∉ st.existing →
      (processTorrent env m (st, ma) t).1.addCalls
        = st.addCalls ++ [create_magnet_link (strLower t.hash) (movieName m t)] ∧
      strBegins ("magnet:?xt=urn:btih:" ++ strLower t.hash)
        (create_magnet_link (strLower t.hash) (movieName m t)) = true) := by
  refine ⟨create_magnet_link_eq h n, rfl, create_magnet_link_begins h n, ?e4⟩
  intro hne hnm
  refine ⟨?c1, create_magnet_link_begins _ _⟩
  unfold processTorrent
  dsimp only
  rw [if_neg (by push_neg; exact ⟨hne, hnm⟩)]
  split
  · split
    · rfl
    · rfl
  · rfl

/-- C8 witness: the amended construction law and the lower-cased call-site
magnet, instantiated on concrete inputs. -/
theorem C8_magnet_construction_witness :
    create_magnet_link ("abc") ("My Movie")
        = "magnet:?xt=urn:btih:" ++ "abc" ++ "&dn=" ++ plusSpaces ("My Movie") ++ trackersTail ∧
    (processTorrent envF mW (initState [], false) tW).1.addCalls
        = (initState []).addCalls
          ++ [create_magnet_link (strLower tW.hash) (movieName mW tW)] := by
  have h := C8_magnet_construction ("abc") ("My Movie") envF mW (initState []) false tW
  exact ⟨h.1, (h.2.2.2 (by decide) (by simp [initState])).1⟩

/-- C10: a variant whose hash is missing or empty is skipped silently — no
magnet is built, no destination call is made, no counter changes — and an
item counts as skipped exactly when no variant of it was added. -/
theorem C10_empty_hash_skip (env : Env) (m : Movie) (st : RunState)
    (ma : Bool) (t : Torrent) :
    (strLower t.hash = "" → processTorrent env m (st, ma) t = (st, ma)) ∧
    (m.torrents ≠ [] → selectTorrents preferred_qualities m.torrents ≠ [] →
      ((selectTorrents preferred_qualities m.torrents).foldl (processTorrent env m)
          ({ st with moviesProcessed := st.moviesProcessed + 1 }, false)).2 = true →
      (processMovie env st m).totalSkipped = st.totalSkipped) ∧
    (m.torrents ≠ [] → selectTorrents preferred_qualities m.torrents ≠ [] →
      ((selectTorrents preferred_qualities m.torrents).foldl (processTorrent env m)
          ({ st with moviesProcessed := st.moviesProcessed + 1 }, false)).2 = false →
      (processMovie env st m).totalSkipped = st.totalSkipped + 1) := by
  refine ⟨?e1, ?e2, ?e3⟩
  · intro hz
    unfold processTorrent
    dsimp only
    rw [if_pos (Or.inl hz)]
  · intro h1 h2 hts
    unfold processMovie
    dsimp only
    rw [if_neg h1, if_neg h2, hts]
    simp only [if_true]
    exact foldTorrents_skipped env m _ _
  · intro h1 h2 hts
    unfold processMovie
    dsimp only
    rw [if_neg h1, if_neg h2, hts]
    simp only [Bool.false_eq_true, if_false]
    have hsk := foldTorrents_skipped env m (selectTorrents preferred_qualities m.torrents)
      ({ st with moviesProcessed := st.moviesProcessed + 1 }, false)
    simp only [hsk]

set_option maxRecDepth 8000 in
/-- C10 witness: the empty-hash variant of `mE` is skipped without any state
change, and the item `mW` (one variant added under `envW`) is not counted
skipped. -/
theorem C10_empty_hash_skip_witness :
    processTorrent envW mE (initState [], false) tE = (initState [], false) ∧
    (processMovie envW (initState []) mW).totalSkipped = (initState []).totalSkipped := by
  constructor
  · exact (C10_empty_hash_skip envW mE (initState []) false tE).1 rfl
  · exact (C10_empty_hash_skip envW mW (initState []) false tW).2.1
      (by decide) (by decide) (by decide)

/-- C2: resuming from checkpoint `P` with `startPage = P + 1` computes
`endPage = min(startPage + batchSize − 1, totalPages)` (or with `maxPages`
when a page cap is set) and attempts exactly the pages
`P + 1 .. endPage`; page `P` is never re-processed. -/
theorem C2_resumability (denv : DriverEnv) (p1m : List Movie)
    (index : List String) (P T mp bs : Nat) :
    (mp = 0 → end_page (P + 1) mp bs T = min (P + 1 + bs - 1) T) ∧
    (0 < mp → end_page (P + 1) mp bs T = min (P + 1 + mp - 1) T) ∧
    (runDriver denv p1m index (P + 1) (end_page (P + 1) mp bs T)).attempted
      = pageRange (P + 1) (end_page (P + 1) mp bs T) ∧
    P ∉ pageRange (P + 1) (end_page (P + 1) mp bs T) := by
  refine ⟨?e1, ?e2, ?e3, ?e4⟩
  · intro h0
    unfold end_page
    rw [if_neg (by omega)]
  · intro hpos
    unfold end_page
    rw [if_pos hpos]
  · unfold runDriver
    rw [runPages_attempted]
    rfl
  · intro hmem
    rw [mem_pageRange] at hmem
    omega

/-- C2 witness: resuming at page 4 (checkpoint 3) with batch size 5 over a
10-page catalog attempts exactly pages 4..8 and not page 3. -/
theorem C2_resumability_witness :
    end_page 4 0 5 10 = min (4 + 5 - 1) 10 ∧
    (runDriver denvW [] [] 4 (end_page 4 0 5 10)).attempted
      = pageRange 4 (end_page 4 0 5 10) ∧
    3 ∉ pageRange 4 (end_page 4 0 5 10) := by
  obtain ⟨h1, _, h3, h4⟩ := C2_resumability denvW [] [] 3 10 0 5
  exact ⟨h1 rfl, h3, h4⟩

/-- C3: a page `p > 1` of the batch whose fetch raises is caught: a
checkpoint recording `lastCompletedPage = p − 1`, `lastAttemptedPage = p`
and the running counters (the state after the pages before `p`) is saved,
and the loop still attempts every page of the range — a bad page never
aborts the batch. -/
theorem C3_page_failure_continuation (denv : DriverEnv) (p1m : List Movie)
    (index : List String) (s e p : Nat) (msg : String)
    (hs : s ≤ p) (he : p ≤ e) (h1 : 1 < p)
    (hf : denv.fetch p = Except.error msg) :
    (runDriver denv p1m index s e).attempted = pageRange s e ∧
    errorCheckpoint p (runDriver denv p1m index s (p - 1)).rs
      ∈ (runDriver denv p1m index s e).checkpoints := by
  constructor
  · unfold runDriver
    rw [runPages_attempted]
    rfl
  · have hsplit := pageRange_split s e p hs he (by omega)
    unfold runDriver runPages
    rw [hsplit, List.foldl_append, List.foldl_cons]
    rw [stepPage_error denv p1m _ p msg h1 hf]
    refine runPages_checkpoints denv p1m (pageRange (p + 1) e) _ _ ?hmem
    exact List.mem_append_right _ (List.mem_singleton.mpr rfl)

/-- C3 witness: with `denvW` (fetch of page 2 raises) over pages 1..3, all
three pages are attempted and the error checkpoint for page 2 carries the
counters accumulated through page 1. -/
theorem C3_page_failure_continuation_witness :
    (runDriver denvW [] [] 1 3).attempted = pageRange 1 3 ∧
    errorCheckpoint 2 (runDriver denvW [] [] 1 1).rs
      ∈ (runDriver denvW [] [] 1 3).checkpoints :=
  C3_page_failure_continuation denvW [] [] 1 3 2 ("boom")
    (by decide) (by decide) (by decide) rfl

/-- C9: the completion marker is written exactly when `endPage ≥ totalPages`
(as computed by `end_page`), and once present it survives every further
bulk or incremental run: the bulk script only ever creates it, the
incremental script only reads it. -/
theorem C9_completion_marker (s mp bs T : Nat) (f : Bool)
    (runs : List (Nat × Nat)) :
    runBulkFlag false (end_page s mp bs T) T = decide (T ≤ end_page s mp bs T) ∧
    runBulkFlag true (end_page s mp bs T) T = true ∧
    runIncrementalFlag f = f ∧
    List.foldl (fun fl r => runIncrementalFlag (runBulkFlag fl r.1 r.2)) true runs
      = true := by
  refine ⟨rfl, rfl, rfl, ?e⟩
  induction runs with
  | nil => rfl
  | cons r rs ih => exact ih

/-- C4: when every attempt answers HTTP 429, `add_magnet` performs exactly
3 attempts, sleeping `attempt_index * backoff_unit` seconds between them,
and returns `None`; a non-429 error at any attempt aborts immediately with
`None` and no further attempts. -/
theorem C4_add_magnet_retry (resp : Nat → AddAttempt) (unit : Nat) :
    ((∀ i, i < 3 → resp i = AddAttempt.httpError 429) →
      add_magnet resp unit 3 = (none, [1 * unit, 2 * unit], 3)) ∧
    (∀ j, j < 3 → (∀ i, i < j → resp i = AddAttempt.httpError 429) →
      (resp j = AddAttempt.transportError ∨
        ∃ c, c ≠ 429 ∧ resp j = AddAttempt.httpError c) →
      add_magnet resp unit 3
        = (none, (List.range j).map (fun i => (i + 1) * unit), j + 1)) := by
  constructor
  · intro h
    have e0 := h 0 (by omega)
    have e1 := h 1 (by omega)
    have e2 := h 2 (by omega)
    simp [add_magnet, addMagnetGo, e0, e1, e2]
  · intro j hj hpre herr
    interval_cases j
    · rcases herr with h | ⟨c, hc, h⟩
      · simp [add_magnet, addMagnetGo, h]
      · simp [add_magnet, addMagnetGo, h, hc]
    · have e0 := hpre 0 (by omega)
      rcases herr with h | ⟨c, hc, h⟩
      · simp [add_magnet, addMagnetGo, e0, h, List.range_succ]
      · simp [add_magnet, addMagnetGo, e0, h, hc, List.range_succ]
    · have e0 := hpre 0 (by omega)
      have e1 := hpre 1 (by omega)
      rcases herr with h | ⟨c, hc, h⟩
      · simp [add_magnet, addMagnetGo, e0, e1, h, List.range_succ]
      · simp [add_magnet, addMagnetGo, e0, e1, h, hc, List.range_succ]

/-- C4 witness: an all-429 destination makes `add_magnet` fail after exactly
3 attempts with backoff waits of 1 and 2 units (10s/20s at the
`bulk_fetch.py` call site). -/
theorem C4_add_magnet_retry_witness :
    add_magnet (fun _ => AddAttempt.httpError 429) 10 3 = (none, [1 * 10, 2 * 10], 3) :=
  (C4_add_magnet_retry (fun _ => AddAttempt.httpError 429) 10).1 (fun _ _ => rfl)

/-- C5: `select_files` performs at most 3 attempts; when every attempt is an
HTTP 404 or a transport error it fails after exactly 3 attempts with two
fixed 2-second waits; a variant whose add succeeded but whose file
selection fails is counted failed and its hash is not recorded in the dedup
index. -/
theorem C5_select_files_retry (resp : Nat → SelAttempt) (env : Env) (m : Movie)
    (st : RunState) (ma : Bool) (t : Torrent) (tid : String) :
    (select_files resp 3).2.2 ≤ 3 ∧
    ((∀ i, i < 3 → resp i = SelAttempt.httpError 404 ∨ resp i = SelAttempt.transportError) →
      select_files resp 3 = (false, [2, 2], 3)) ∧
    (strLower t.hash ≠ "" → strLower t.hash ∉ st.existing →
      env.add (create_magnet_link (strLower t.hash) (movieName m t)) = some tid →
      env.sel tid = false →
      (processTorrent env m (st, ma) t).1.totalFailed = st.totalFailed + 1 ∧
      (processTorrent env m (st, ma) t).1.existing = st.existing ∧
      (processTorrent env m (st, ma) t).1.totalAdded = st.totalAdded) := by
  refine ⟨selectFilesGo_attempts_le resp 3 3 0, ?e2, ?e3⟩
  · intro h
    have e0 := h 0 (by omega)
    have e1 := h 1 (by omega)
    have e2 := h 2 (by omega)
    rcases e0 with e0 | e0 <;> rcases e1 with e1 | e1 <;> rcases e2 with e2 | e2 <;>
      simp [select_files, selectFilesGo, e0, e1, e2]
  · intro hne hnm hadd hsel
    unfold processTorrent
    dsimp only
    rw [if_neg (by push_neg; exact ⟨hne, hnm⟩), hadd]
    simp [hsel]

/-- C5 witness: an all-404 destination exhausts the 3 attempts of
`select_files`, and under `envF` (add succeeds, selection fails) the
variant `tW` is counted failed with its hash left out of the index. -/
theorem C5_select_files_retry_witness :
    select_files (fun _ => SelAttempt.httpError 404) 3 = (false, [2, 2], 3) ∧
    (processTorrent envF mW (initState [], false) tW).1.totalFailed
        = (initState []).totalFailed + 1 ∧
    (processTorrent envF mW (initState [], false) tW).1.existing
        = (initState []).existing ∧
    (processTorrent envF mW (initState [], false) tW).1.totalAdded
        = (initState []).totalAdded := by
  have h := C5_select_files_retry (fun _ => SelAttempt.httpError 404) envF mW
    (initState []) false tW ("idX")
  exact ⟨h.2.1 (fun _ _ => Or.inl rfl),
    h.2.2 (by decide) (by simp [initState]) rfl rfl⟩

/-- C6: a raising page fetch, a non-`ok` status, and a missing or empty
movie list all make the pager return the pair `([], 0)` (and the
latest-movies variant `[]`) — the same value as a genuinely empty result —
and the pager never re-raises towards its caller (it is a total function of
the outcome of the exchange). -/
theorem C6_pager_failure_signal (msg : String) (d : ApiResponse) :
    get_movies_page (Except.error msg) = ([], 0) ∧
    (¬(d.status = "ok" ∧ d.movies ≠ []) → get_movies_page (Except.ok d) = ([], 0)) ∧
    (d.status = "ok" → d.movies = [] → get_movies_page (Except.ok d) = ([], 0)) ∧
    get_latest_movies (Except.error msg) = [] ∧
    (¬(d.status = "ok" ∧ d.movies ≠ []) → get_latest_movies (Except.ok d) = []) := by
  refine ⟨rfl, ?e2, ?e3, rfl, ?e5⟩
  · intro hnd
    unfold get_movies_page
    dsimp only
    rw [if_neg hnd]
  · intro h1 h2
    unfold get_movies_page
    dsimp only
    rw [if_neg (by simp [h1, h2])]
  · intro hnd
    unfold get_latest_movies
    dsimp only
    rw [if_neg hnd]

/-- C6 witness: a transport failure and an API error status both yield the
empty page `([], 0)`. -/
theorem C6_pager_failure_signal_witness :
    get_movies_page (Except.error ("down")) = ([], 0) ∧
    get_movies_page
      (Except.ok { status := "error", movies := [], movie_count := 0, limit := 50 })
      = ([], 0) := by
  have h := C6_pager_failure_signal ("down")
    { status := "error", movies := [], movie_count := 0, limit := 50 }
  exact ⟨h.1, h.2.1 (by simp)⟩

end YtsRd
